import Mathlib

/-!
Shallow embedding of the keyforge rules engine (`main.py`).

The Python engine mutates a `State` holding two `Player`s; actions are
callable objects.  Here the state is passed explicitly and each action is a
function `State → State` (or `State → Except Unit State` when the Python code
can raise an uncaught exception: `.error ()` models the crash).

The Python `Random` object, used only through `random.shuffle`, is abstracted
as an explicit `shuffle : List CreatureCard → List CreatureCard` parameter;
theorems that depend on shuffling being a permutation take that as a
hypothesis.

The concrete card classes override the hooks `play`/`reap`/`action` with a
closed set of behaviours (enter play ready, steal 1 aember, gain 1 aember), so
the hooks are embedded as small enumerations rather than as functions, which
keeps every definition executable and decidable.
-/

namespace KeyForge

/-- Houses are plain strings in the source (`class House(str)`). -/
abbrev House := String

def Dis : House := "Dis"

def Shadows : House := "Shadows"

def Brobnar : House := "Brobnar"

def Untamed : House := "Untamed"

/-- On-play hooks occurring in the card catalog: the base no-op
(`CreatureCard.play`), Silvertooth's `creature.ready = True`, and Urchin's
`steal(state, amount=1)`. -/
inductive PlayHook where
  | nop
  | enterReady
  | steal1
deriving DecidableEq, Repr

/-- On-reap hooks occurring in the card catalog: the base no-op and
DewFaerie's `state.active.aember += 1`. -/
inductive ReapHook where
  | nop
  | gainAember1
deriving DecidableEq, Repr

/-- `action` attributes occurring in the card catalog: `None` (falsy) and
NoddyTheThief's `partial(steal, amount=1)`. -/
inductive ActionHook where
  | nop
  | steal1
deriving DecidableEq, Repr

/-- `CreatureCard`: house, base power, base armor, base elusive flag, and the
optional hooks.  (The base `Card.house = None` placeholder is never
instantiated; every concrete card carries a house, so `house` is total.) -/
structure CreatureCard where
  house : House
  power : Int
  armor : Int
  elusive : Bool
  playHook : PlayHook
  reapHook : ReapHook
  actionHook : ActionHook
deriving DecidableEq, Repr

def Silvertooth : CreatureCard :=
  ⟨Shadows, 2, 0, false, .enterReady, .nop, .nop⟩

def NoddyTheThief : CreatureCard :=
  ⟨Shadows, 2, 0, true, .nop, .nop, .steal1⟩

def Urchin : CreatureCard :=
  ⟨Shadows, 1, 0, true, .steal1, .nop, .nop⟩

def DewFaerie : CreatureCard :=
  ⟨Untamed, 2, 0, true, .nop, .gainAember1, .nop⟩

/-- `Creature.__init__`: card reference, cumulative damage, ready flag, and
per-instance elusive/armor initialised from the card. -/
structure Creature where
  card : CreatureCard
  damage_taken : Int
  ready : Bool
  elusive : Bool
  armor : Int
deriving DecidableEq, Repr

/-- `Creature(card)` constructor: `damage_taken = 0`, `ready = False`,
`elusive = card.elusive`, `armor = card.armor`. -/
def Creature.spawn (card : CreatureCard) : Creature :=
  ⟨card, 0, false, card.elusive, card.armor⟩

/-- `Creature.power`: delegates to the card. -/
def Creature.power (c : Creature) : Int :=
  c.card.power

/-- `Creature.can_fight`: always `True` in the source. -/
def Creature.can_fight (_c _target : Creature) : Bool :=
  true

/-- `Player`: aember, hand, battle line, discard, deck, forged keys. -/
structure Player where
  aember : Int
  hand : List CreatureCard
  battle_line : List Creature
  discard : List CreatureCard
  deck : List CreatureCard
  forged : Nat
deriving DecidableEq, Repr

/-- `State`: the two players (`players[0]`, `players[1]`), which of them is
active, the selected house (or `None`), and the round counter.  The Python
`state.active` field is an object reference into `players`; it is embedded as
the Boolean index `activeIsP0`. -/
structure State where
  p0 : Player
  p1 : Player
  activeIsP0 : Bool
  house : Option House
  round : Nat
deriving DecidableEq, Repr

def State.active (s : State) : Player :=
  if s.activeIsP0 then s.p0 else s.p1

/-- `State.opponent`: the player that is not active. -/
def State.opponent (s : State) : Player :=
  if s.activeIsP0 then s.p1 else s.p0

/-- Replace the active player (the Python code mutates it in place). -/
def State.setActive (s : State) (p : Player) : State :=
  if s.activeIsP0 then { s with p0 := p } else { s with p1 := p }

/-- Replace the non-active player. -/
def State.setOpponent (s : State) (p : Player) : State :=
  if s.activeIsP0 then { s with p1 := p } else { s with p0 := p }

/-- `steal(state, amount)`: move `min(amount, opponent.aember)` aember from
the opponent to the active player. -/
def steal (s : State) (amount : Int) : State :=
  let a := min amount s.opponent.aember
  let s1 := s.setOpponent { s.opponent with aember := s.opponent.aember - a }
  s1.setActive { s1.active with aember := s1.active.aember + a }

/-- Pointwise list update at an index (the Python code mutates the creature
object held at that position of the battle line in place). -/
def modifyIdx (l : List α) (i : Nat) (f : α → α) : List α :=
  match l, i with
  | [], _ => []
  | a :: rest, 0 => f a :: rest
  | a :: rest, n + 1 => a :: modifyIdx rest n f

/-- `list.pop()` pops the LAST element of a Python list; `none` when empty. -/
def popLast? : List α → Option (α × List α)
  | [] => none
  | [a] => some (a, [])
  | a :: b :: rest =>
      match popLast? (b :: rest) with
      | some (x, r) => some (x, a :: r)
      | none => none

/-- One drawing step per unit of fuel.  Each iteration of the Python
`while len(hand) < to` loop appends exactly one card to the hand (or raises),
so running it with fuel `to - len(hand)` is the loop itself.  When the deck is
empty the discard is shuffled into the deck first; if the deck is still empty,
`player.deck.pop()` raises `IndexError` — modelled as `.error ()`. -/
def drawFuel (shuffle : List CreatureCard → List CreatureCard) :
    Nat → Player → Except Unit Player
  | 0, p => .ok p
  | n + 1, p =>
      let p1 := if p.deck.isEmpty
        then { p with deck := shuffle p.discard, discard := [] }
        else p
      match popLast? p1.deck with
      | none => .error ()
      | some (card, rest) =>
          drawFuel shuffle n { p1 with deck := rest, hand := p1.hand ++ [card] }

/-- `State.draw(player, to)`: draw until the hand holds `to` cards.  Only the
drawn player and the random source are touched, so it is embedded as a
function on `Player` with the shuffle abstracted. -/
def draw (shuffle : List CreatureCard → List CreatureCard)
    (p : Player) (upto : Nat) : Except Unit Player :=
  drawFuel shuffle (upto - p.hand.length) p

/-- The creatures of `player` that the cull sweep collects:
`damage_taken >= power()`. -/
def destroyedOf (p : Player) : List Creature :=
  p.battle_line.filter (fun c => c.power ≤ c.damage_taken)

/-- `State.cull`: the source iterates over `to_remove`, removes each creature
from the battle line and then executes `to_remove.destroyed(self, creature)`
— an attribute access on the Python *list* `to_remove`, which raises
`AttributeError` on the very first removed creature.  Hence cull succeeds
(and changes nothing) exactly when no creature is destroyed, and raises as
soon as any creature is; `.error ()` models the uncaught exception. -/
def State.cull (s : State) : Except Unit State :=
  if (destroyedOf s.p0).isEmpty && (destroyedOf s.p1).isEmpty
  then .ok s
  else .error ()

/-- `end_turn`'s step 1 applied to one creature: set ready, reset elusive and
armor to the card's base values; `damage_taken` is untouched. -/
def readyReset (c : Creature) : Creature :=
  { c with ready := true, elusive := c.card.elusive, armor := c.card.armor }

/-- `end_turn(state)`: ready/reset the active player's battle line, draw the
active player to 6, unselect the house, swap the active player, then forge a
key for the new active player if their aember is at least 6. -/
def end_turn (shuffle : List CreatureCard → List CreatureCard)
    (s : State) : Except Unit State :=
  let s1 := s.setActive
    { s.active with battle_line := s.active.battle_line.map readyReset }
  match draw shuffle s1.active 6 with
  | .error e => .error e
  | .ok drawn =>
      let s2 := s1.setActive drawn
      let s3 := { s2 with house := none }
      let s4 := { s3 with activeIsP0 := !s3.activeIsP0 }
      let cost : Int := 6
      if cost ≤ s4.active.aember then
        .ok (s4.setActive
          { s4.active with aember := s4.active.aember - cost,
                           forged := s4.active.forged + 1 })
      else
        .ok s4

/-- `State.__init__(deck1, deck2)`: shuffle both decks, then deal 7 cards to
player 0 and 6 to player 1 (an `IndexError` from an undersized deck is
propagated). -/
def mkState (shuffle : List CreatureCard → List CreatureCard)
    (deck1 deck2 : List CreatureCard) : Except Unit State :=
  let pl0 : Player := ⟨0, [], [], [], shuffle deck1, 0⟩
  let pl1 : Player := ⟨0, [], [], [], shuffle deck2, 0⟩
  match draw shuffle pl0 7 with
  | .error e => .error e
  | .ok pl0d =>
      match draw shuffle pl1 6 with
      | .error e => .error e
      | .ok pl1d => .ok ⟨pl0d, pl1d, true, none, 0⟩

/-- Apply a play hook.  `enterReady` acts on the just-played creature, which
`Play.__call__` has appended at the end of the active battle line. -/
def applyPlayHook (hook : PlayHook) (s : State) : State :=
  match hook with
  | .nop => s
  | .enterReady =>
      let bl := modifyIdx s.active.battle_line (s.active.battle_line.length - 1)
        (fun c => { c with ready := true })
      s.setActive { s.active with battle_line := bl }
  | .steal1 => steal s 1

/-- `Play.__call__`: remove the card from the active hand, append a fresh
`Creature` to the active battle line, then run the card's play hook.  The
Python action holds the card object; here the hand position `i` identifies
it (out-of-range `i` cannot arise from enumeration and leaves the state
unchanged). -/
def applyPlay (i : Nat) (s : State) : State :=
  match s.active.hand.get? i with
  | none => s
  | some card =>
      let pl := { s.active with
        hand := s.active.hand.eraseIdx i,
        battle_line := s.active.battle_line ++ [Creature.spawn card] }
      applyPlayHook card.playHook (s.setActive pl)

/-- Apply a reap hook. -/
def applyReapHook (hook : ReapHook) (s : State) : State :=
  match hook with
  | .nop => s
  | .gainAember1 =>
      s.setActive { s.active with aember := s.active.aember + 1 }

/-- `Reap.__call__`: active player gains 1 aember, the reaping creature's
ready flag is cleared, then its reap hook runs. -/
def applyReap (i : Nat) (s : State) : State :=
  match s.active.battle_line.get? i with
  | none => s
  | some c =>
      let s1 := s.setActive { s.active with aember := s.active.aember + 1 }
      let bl := modifyIdx s1.active.battle_line i (fun d => { d with ready := false })
      let s2 := s1.setActive { s1.active with battle_line := bl }
      applyReapHook c.card.reapHook s2

/-- Apply an `action` attribute. -/
def applyActionHook (hook : ActionHook) (s : State) : State :=
  match hook with
  | .nop => s
  | .steal1 => steal s 1

/-- `CreatureAction.__call__`: run `creature.card.action(state)`, then clear
the creature's ready flag.  (The catalog's only action, `steal`, moves aember
only, so position `i` still denotes the acting creature afterwards.) -/
def applyCreatureAction (i : Nat) (s : State) : State :=
  match s.active.battle_line.get? i with
  | none => s
  | some c =>
      let s1 := applyActionHook c.card.actionHook s
      let bl := modifyIdx s1.active.battle_line i (fun d => { d with ready := false })
      s1.setActive { s1.active with battle_line := bl }

/-- The non-evaded branch of `Fight.__call__`: the attacker takes the
target's power as damage, the target takes the attacker's power minus the
target's current armor (no clamping at 0 in the source), the target's armor
is zeroed, and then `state.cull()` sweeps the board. -/
def resolveDamage (i j : Nat) (attacker target : Creature)
    (s : State) : Except Unit State :=
  let abl := modifyIdx s.active.battle_line i
    (fun c => { c with damage_taken := c.damage_taken + target.power })
  let s1 := s.setActive { s.active with battle_line := abl }
  let obl := modifyIdx s1.opponent.battle_line j
    (fun c =>
      { c with
        damage_taken := c.damage_taken + attacker.power - c.armor,
        armor := 0 })
  let s2 := s1.setOpponent { s1.opponent with battle_line := obl }
  s2.cull

/-- The evaded branch of `Fight.__call__`: consume the target's elusive
flag; nothing else changes and no cull runs. -/
def consumeElusive (j : Nat) (s : State) : State :=
  let obl := modifyIdx s.opponent.battle_line j (fun c => { c with elusive := false })
  s.setOpponent { s.opponent with battle_line := obl }

/-- `Fight.__call__`: if the target is currently elusive, just consume the
flag and return (no damage, no cull); otherwise resolve the damage exchange
and cull.  Attacker `i` indexes the active battle line, target `j` the
opponent battle line. -/
def applyFight (i j : Nat) (s : State) : Except Unit State :=
  match s.active.battle_line.get? i, s.opponent.battle_line.get? j with
  | some attacker, some target =>
      if target.elusive then
        .ok (consumeElusive j s)
      else
        resolveDamage i j attacker target s
  | _, _ => .ok s

/-- `SelectHouse.__call__`: set the selected house. -/
def applySelectHouse (h : House) (s : State) : State :=
  { s with house := some h }

/-- The closed set of action kinds the engine produces.  Hand and battle-line
positions replace the object references the Python actions carry. -/
inductive Action where
  | play (i : Nat)
  | reap (i : Nat)
  | fight (i j : Nat)
  | creatureAction (i : Nat)
  | selectHouse (h : House)
  | endTurn
deriving DecidableEq, Repr

/-- The transition function: dispatch an action to its handler. -/
def applyAction (shuffle : List CreatureCard → List CreatureCard)
    (a : Action) (s : State) : Except Unit State :=
  match a with
  | .play i => .ok (applyPlay i s)
  | .reap i => .ok (applyReap i s)
  | .fight i j => applyFight i j s
  | .creatureAction i => .ok (applyCreatureAction i s)
  | .selectHouse h => .ok (applySelectHouse h s)
  | .endTurn => end_turn shuffle s

/-- Positions of `ready_creatures` in `valid_actions`: battle-line creatures
of the selected house whose ready flag is set. -/
def readyIdx (s : State) (h : House) : List Nat :=
  (List.range s.active.battle_line.length).filter (fun i =>
    ((s.active.battle_line.get? i).map
      (fun c => c.card.house == h && c.ready)).getD false)

/-- Hand positions of cards of the selected house
(`card.house == state.house`). -/
def playIdx (s : State) (h : House) : List Nat :=
  (List.range s.active.hand.length).filter (fun i =>
    ((s.active.hand.get? i).map (fun card => card.house == h)).getD false)

/-- The `Fight` actions: `product(ready_creatures, opponent.battle_line)`
filtered by `creature.can_fight(target)`. -/
def fightActions (s : State) (h : House) : List Action :=
  (readyIdx s h).flatMap (fun i =>
    (List.range s.opponent.battle_line.length).filterMap (fun j =>
      match s.active.battle_line.get? i, s.opponent.battle_line.get? j with
      | some c, some t =>
          if c.can_fight t then some (Action.fight i j) else none
      | _, _ => none))

/-- The ready creatures of the house whose `card.action` is truthy. -/
def actionIdx (s : State) (h : House) : List Nat :=
  (readyIdx s h).filter (fun i =>
    ((s.active.battle_line.get? i).map
      (fun c => c.card.actionHook != ActionHook.nop)).getD false)

/-- `valid_actions(state)`.  With no selected house: one `SelectHouse` per
distinct house among the active battle line and hand (a Python `set`,
embedded as `List.dedup`).  With a selected house: plays of hand cards of the
house, reaps of ready creatures of the house, fights of every (ready creature
of the house, opponent creature) pair passing `can_fight`, creature actions
of ready creatures of the house with a truthy `card.action`, and the single
`end_turn`. -/
def valid_actions (s : State) : List Action :=
  match s.house with
  | none =>
      let houses :=
        ((s.active.battle_line.map (fun c => c.card.house)) ++
         (s.active.hand.map (fun card => card.house))).dedup
      houses.map Action.selectHouse
  | some h =>
      (playIdx s h).map Action.play
      ++ (readyIdx s h).map Action.reap
      ++ fightActions s h
      ++ (actionIdx s h).map Action.creatureAction
      ++ [Action.endTurn]

/-- The identity shuffle, used to instantiate theorems on concrete states. -/
def noShuffle : List CreatureCard → List CreatureCard :=
  fun l => l

/-- A shuffle function is sound when it permutes its input, as
`random.shuffle` does. -/
def IsShuffle (shuffle : List CreatureCard → List CreatureCard) : Prop :=
  ∀ l, (shuffle l).Perm l

/-- The number of cards a player owns across the four collections. -/
def cardCount (p : Player) : Nat :=
  p.hand.length + p.battle_line.length + p.deck.length + p.discard.length

/-- Both players keep their card counts between two states. -/
def SameCounts (s s1 : State) : Prop :=
  cardCount s1.p0 = cardCount s.p0 ∧ cardCount s1.p1 = cardCount s.p1

/-- States reachable from a game started on `deck1`/`deck2`: the initial
state (when the deal succeeds) and everything produced by successfully
applying any action, each shuffle call being some permutation. -/
inductive Reachable (deck1 deck2 : List CreatureCard) : State → Prop where
  | init (shuffle : List CreatureCard → List CreatureCard)
      (hs : IsShuffle shuffle) (s : State) :
      mkState shuffle deck1 deck2 = .ok s → Reachable deck1 deck2 s
  | step (shuffle : List CreatureCard → List CreatureCard)
      (hs : IsShuffle shuffle) (a : Action) (s s1 : State) :
      Reachable deck1 deck2 s → applyAction shuffle a s = .ok s1 →
      Reachable deck1 deck2 s1

/-- Position `i` of the active battle line holds a ready creature of house
`h` (the membership test of `ready_creatures`). -/
def isReadyOfHouse (s : State) (h : House) (i : Nat) : Prop :=
  ∃ c, s.active.battle_line.get? i = some c ∧ c.card.house = h ∧ c.ready = true

/-! Concrete cards and states used to instantiate the theorems.  `atkCard`
and `tankCard` are legal card descriptors (the engine accepts any
`CreatureCard`); `tankCard` has more armor than `atkCard` has power. -/

def atkCard : CreatureCard :=
  ⟨Brobnar, 3, 0, false, .nop, .nop, .nop⟩

def tankCard : CreatureCard :=
  ⟨Brobnar, 2, 5, false, .nop, .nop, .nop⟩

/-- A low-power, armored card whose fights are survivable on both sides. -/
def shieldCard : CreatureCard :=
  ⟨Brobnar, 1, 2, false, .nop, .nop, .nop⟩

/-- Attacker of `atkCard` faces the heavily armored `tankCard`. -/
def sArmor : State :=
  ⟨⟨0, [], [Creature.spawn atkCard], [], [], 0⟩,
   ⟨0, [], [Creature.spawn tankCard], [], [], 0⟩, true, some Brobnar, 0⟩

/-- A player with hand, deck and discard all empty. -/
def emptyHanded : Player :=
  ⟨0, [], [], [], [], 0⟩

/-- Both players own no cards at all. -/
def sStarved : State :=
  ⟨emptyHanded, emptyHanded, true, none, 0⟩

/-- Two Silvertooth creatures about to trade lethal damage. -/
def sLethal : State :=
  ⟨⟨0, [], [Creature.spawn Silvertooth], [], [], 0⟩,
   ⟨0, [], [Creature.spawn Silvertooth], [], [], 0⟩, true, some Shadows, 0⟩

/-- The state `sLethal` reaches right after the damage exchange, just before
the cull: both Silvertooth creatures carry damage equal to their power. -/
def sLethalHit : State :=
  ⟨⟨0, [], [⟨Silvertooth, 2, false, false, 0⟩], [], [], 0⟩,
   ⟨0, [], [⟨Silvertooth, 2, false, false, 0⟩], [], [], 0⟩, true, some Shadows, 0⟩

/-- A ready Silvertooth creature. -/
def rdyTooth : Creature :=
  { Creature.spawn Silvertooth with ready := true }

/-- A ready NoddyTheThief creature (it has an `action`). -/
def rdyNoddy : Creature :=
  { Creature.spawn NoddyTheThief with ready := true }

/-- Ready attacker versus an elusive Noddy. -/
def sEvade : State :=
  ⟨⟨0, [], [rdyTooth], [], [], 0⟩,
   ⟨0, [], [Creature.spawn NoddyTheThief], [], [], 0⟩, true, some Shadows, 0⟩

/-- Like `sEvade`, but the attacker already carries lethal damage, so a cull
would remove it — the evaded fight must not run one. -/
def sDmgEvade : State :=
  ⟨⟨0, [], [{ rdyTooth with damage_taken := 5 }], [], [], 0⟩,
   ⟨0, [], [Creature.spawn NoddyTheThief], [], [], 0⟩, true, some Shadows, 0⟩

/-- Ready attacker versus a shielded defender: the exchange leaves both
creatures below their power, so the cull removes nothing. -/
def sBrawl : State :=
  ⟨⟨0, [], [rdyTooth], [], [], 0⟩,
   ⟨0, [], [Creature.spawn shieldCard], [], [], 0⟩, true, some Brobnar, 0⟩

/-- A lone ready Noddy with its steal action available. -/
def sNoddyAct : State :=
  ⟨⟨0, [], [rdyNoddy], [], [], 0⟩, emptyHanded, true, some Shadows, 0⟩

/-- A battle-worn creature with flags away from their base values. -/
def dmgTooth : Creature :=
  { Creature.spawn Silvertooth with damage_taken := 1, elusive := true, armor := 2 }

/-- End-of-turn demo state: the active player holds a full hand (so the draw
is a no-op) and a battered creature; the opponent sits on 7 aember. -/
def sTurn : State :=
  ⟨⟨3, List.replicate 6 Urchin, [dmgTooth], [], [], 0⟩,
   ⟨7, [], [], [], [], 0⟩, true, some Shadows, 5⟩

/-- The state `end_turn` produces from `sTurn`. -/
def sTurnRes : State :=
  ⟨⟨3, List.replicate 6 Urchin,
     [⟨Silvertooth, 1, true, false, 0⟩], [], [], 0⟩,
   ⟨1, [], [], [], [], 1⟩, false, none, 5⟩

/-- Enumeration demo: a Shadows hand card, an off-house hand card, a ready
creature, and one opponent creature, with Shadows selected. -/
def sPicked : State :=
  ⟨⟨0, [Urchin, DewFaerie], [rdyTooth], [], [], 0⟩,
   ⟨0, [], [Creature.spawn Silvertooth], [], [], 0⟩, true, some Shadows, 0⟩

/-- A player with no cards anywhere and no selected house. -/
def sBare : State :=
  ⟨emptyHanded, emptyHanded, true, none, 0⟩

/-- Demo decks for the conservation witness. -/
def demoDeck1 : List CreatureCard :=
  List.replicate 7 Silvertooth

def demoDeck2 : List CreatureCard :=
  List.replicate 6 Silvertooth

/-- The state `mkState` deals from the demo decks with the identity
shuffle: all cards end up in the hands. -/
def demoInit : State :=
  ⟨⟨0, List.replicate 7 Silvertooth, [], [], [], 0⟩,
   ⟨0, List.replicate 6 Silvertooth, [], [], [], 0⟩, true, none, 0⟩

/-! Basic facts about the state accessors and the list helpers. -/

@[simp]
theorem active_setActive (s : State) (p : Player) : (s.setActive p).active = p := by
  cases h : s.activeIsP0 <;> simp [State.setActive, State.active, h]

@[simp]
theorem opponent_setActive (s : State) (p : Player) :
    (s.setActive p).opponent = s.opponent := by
  cases h : s.activeIsP0 <;> simp [State.setActive, State.opponent, h]

@[simp]
theorem active_setOpponent (s : State) (p : Player) :
    (s.setOpponent p).active = s.active := by
  cases h : s.activeIsP0 <;> simp [State.setOpponent, State.active, h]

@[simp]
theorem opponent_setOpponent (s : State) (p : Player) :
    (s.setOpponent p).opponent = p := by
  cases h : s.activeIsP0 <;> simp [State.setOpponent, State.opponent, h]

@[simp]
theorem activeIsP0_setActive (s : State) (p : Player) :
    (s.setActive p).activeIsP0 = s.activeIsP0 := by
  cases h : s.activeIsP0 <;> simp [State.setActive, h]

@[simp]
theorem activeIsP0_setOpponent (s : State) (p : Player) :
    (s.setOpponent p).activeIsP0 = s.activeIsP0 := by
  cases h : s.activeIsP0 <;> simp [State.setOpponent, h]

@[simp]
theorem house_setActive (s : State) (p : Player) :
    (s.setActive p).house = s.house := by
  cases h : s.activeIsP0 <;> simp [State.setActive, h]

@[simp]
theorem house_setOpponent (s : State) (p : Player) :
    (s.setOpponent p).house = s.house := by
  cases h : s.activeIsP0 <;> simp [State.setOpponent, h]

@[simp]
theorem round_setActive (s : State) (p : Player) :
    (s.setActive p).round = s.round := by
  cases h : s.activeIsP0 <;> simp [State.setActive, h]

@[simp]
theorem round_setOpponent (s : State) (p : Player) :
    (s.setOpponent p).round = s.round := by
  cases h : s.activeIsP0 <;> simp [State.setOpponent, h]

@[simp]
theorem modifyIdx_length (l : List α) (i : Nat) (f : α → α) :
    (modifyIdx l i f).length = l.length := by
  induction l generalizing i with
  | nil => simp [modifyIdx]
  | cons a rest ih =>
      cases i with
      | zero => simp [modifyIdx]
      | succ n => simp [modifyIdx, ih]

@[simp]
theorem modifyIdx_get_self (l : List α) (i : Nat) (f : α → α) :
    (modifyIdx l i f).get? i = (l.get? i).map f := by
  induction l generalizing i with
  | nil => simp [modifyIdx]
  | cons a rest ih =>
      cases i with
      | zero => simp [modifyIdx]
      | succ n => simpa [modifyIdx] using ih n

@[simp]
theorem modifyIdx_getElem? (l : List α) (i : Nat) (f : α → α) :
    (modifyIdx l i f)[i]? = l[i]?.map f := by
  induction l generalizing i with
  | nil => simp [modifyIdx]
  | cons a rest ih =>
      cases i with
      | zero => simp [modifyIdx]
      | succ n => simpa [modifyIdx] using ih n

theorem modifyIdx_map_congr (l : List α) (i : Nat) (f : α → α) (g : α → β)
    (h : ∀ a, g (f a) = g a) :
    (modifyIdx l i f).map g = l.map g := by
  induction l generalizing i with
  | nil => simp [modifyIdx]
  | cons a rest ih =>
      cases i with
      | zero => simp [modifyIdx, h]
      | succ n => simp [modifyIdx, ih n]

theorem popLast?_length (l : List α) (a : α) (r : List α)
    (h : popLast? l = some (a, r)) : l.length = r.length + 1 := by
  induction l generalizing a r with
  | nil => simp [popLast?] at h
  | cons x rest ih =>
      cases rest with
      | nil => simp [popLast?] at h; simp [h.2.symm]
      | cons y t =>
          simp only [popLast?] at h
          cases hp : popLast? (y :: t) with
          | none => rw [hp] at h; simp at h
          | some p =>
              rw [hp] at h
              cases p with
              | mk x1 r1 =>
                  simp at h
                  obtain ⟨h1, h2⟩ := h
                  subst h1
                  have := ih x1 r1 hp
                  simp [← h2, this]

/-! The three claims the code refutes. -/

/-- Claim C1 (refuted by the code): `Fight.__call__` adds
`creature.power() - target.armor` to the defender's damage with no
`max(0, ·)` clamp.  Fighting `tankCard` (power 2, armor 5) with `atkCard`
(power 3) moves the defender's `damage_taken` from 0 to `-2`, whereas the
claim demands an increase of `max(0, 3 - 5) = 0`.  The attacker's increment
(`+2`) and the armor zeroing do hold. -/
theorem fight_ignores_armor_clamp :
    ((applyFight 0 0 sArmor).map fun s =>
        (s.p0.battle_line.map Creature.damage_taken,
         s.p1.battle_line.map fun c => (c.damage_taken, c.armor)))
      = .ok ([2], [(-2, 0)])
    ∧ max (0 : Int) (atkCard.power - tankCard.armor) = 0 :=
  ⟨rfl, by decide⟩

/-- Claim C2 (refuted by the code): when hand, deck and discard are all
empty, the draw loop swaps in the empty discard and then executes
`player.deck.pop()` on an empty list, raising `IndexError` — a crash, not
the defined no-op the claim specifies.  The same crash reaches the
end-of-turn draw and the initial deal. -/
theorem draw_exhausted_raises :
    draw noShuffle emptyHanded 6 = .error ()
    ∧ end_turn noShuffle sStarved = .error ()
    ∧ mkState noShuffle [] [] = .error () :=
  ⟨rfl, rfl, rfl⟩

/-- Claim C3 (refuted by the code): the cull loop body runs
`to_remove.destroyed(self, creature)` — an attribute lookup on the Python
*list* `to_remove` — so as soon as any creature is destroyed the sweep
raises `AttributeError`; no destroyed hook is ever invoked.  The mutual
Silvertooth fight `sLethal` reduces to `cull` on the post-exchange state
`sLethalHit`, whose defender (and attacker) is destroyed, and errors. -/
theorem cull_destroyed_raises :
    applyFight 0 0 sLethal = .error ()
    ∧ applyFight 0 0 sLethal = State.cull sLethalHit
    ∧ destroyedOf sLethalHit.p1 = sLethalHit.p1.battle_line :=
  ⟨rfl, rfl, rfl⟩

/-- Claim C10: a Fight against an elusive target performs no cull: it
returns successfully with the active battle line untouched and the opponent
battle line of unchanged length (even when some creature already carries
lethal damage, as in `sDmgEvade`); the only change is the target's elusive
flag turning false. -/
theorem fight_elusive_no_cull (s : State) (i j : Nat) (target : Creature)
    (hi : i < s.active.battle_line.length)
    (hj : s.opponent.battle_line.get? j = some target)
    (he : target.elusive = true) :
    applyFight i j s = .ok (consumeElusive j s)
    ∧ (consumeElusive j s).active.battle_line = s.active.battle_line
    ∧ (consumeElusive j s).opponent.battle_line.length = s.opponent.battle_line.length
    ∧ (consumeElusive j s).opponent.battle_line =
        modifyIdx s.opponent.battle_line j (fun c => { c with elusive := false })
    ∧ (consumeElusive j s).house = s.house
    ∧ (consumeElusive j s).activeIsP0 = s.activeIsP0 := by
  have ha : s.active.battle_line.get? i = some (s.active.battle_line.get ⟨i, hi⟩) :=
    List.get?_eq_get hi
  refine ⟨?_, ?_, ?_, ?_, ?_, ?_⟩
  · simp only [applyFight, ha, hj, he, if_true]
  · simp [consumeElusive]
  · simp [consumeElusive]
  · simp [consumeElusive]
  · simp [consumeElusive]
  · simp [consumeElusive]

/-- Claim C10 witness: the evaded fight on `sDmgEvade` succeeds and only
consumes the elusive flag, although the attacker sits at 5 damage against
power 2. -/
theorem fight_elusive_no_cull_witness :
    applyFight 0 0 sDmgEvade = .ok (consumeElusive 0 sDmgEvade) :=
  (fight_elusive_no_cull sDmgEvade 0 0 (Creature.spawn NoddyTheThief)
    (by decide) rfl rfl).1

/-- Claim C6: a Fight against an elusive target leaves the attacker's player
untouched and every defender's `damage_taken`/`armor` unchanged, sets the
target's elusive flag to false, and a second Fight against the same target
then takes the normal damage-resolution branch. -/
theorem fight_elusive_consumes_then_normal (s : State) (i j : Nat)
    (attacker target : Creature)
    (ha : s.active.battle_line.get? i = some attacker)
    (hj : s.opponent.battle_line.get? j = some target)
    (he : target.elusive = true) :
    applyFight i j s = .ok (consumeElusive j s)
    ∧ (consumeElusive j s).active = s.active
    ∧ (consumeElusive j s).opponent.battle_line.map (fun c => (c.damage_taken, c.armor))
        = s.opponent.battle_line.map (fun c => (c.damage_taken, c.armor))
    ∧ (consumeElusive j s).opponent.battle_line.get? j
        = some { target with elusive := false }
    ∧ applyFight i j (consumeElusive j s)
        = resolveDamage i j attacker { target with elusive := false }
            (consumeElusive j s) := by
  have h4 : (consumeElusive j s).opponent.battle_line.get? j
      = some { target with elusive := false } := by
    have hj2 := hj
    rw [List.get?_eq_getElem?] at hj2
    simp [consumeElusive, hj2]
  refine ⟨?_, ?_, ?_, h4, ?_⟩
  · simp only [applyFight, ha, hj, he, if_true]
  · simp [consumeElusive]
  · simp only [consumeElusive, opponent_setOpponent]
    exact modifyIdx_map_congr _ _ _ _ (fun a => rfl)
  · have ha2 : (consumeElusive j s).active.battle_line.get? i = some attacker := by
      simpa [consumeElusive] using ha
    simp only [applyFight, ha2, h4]
    rfl

/-- Claim C6 witness: after the evaded fight on `sEvade`, the Noddy target
sits at position 0 with its elusive flag consumed. -/
theorem fight_elusive_consumes_then_normal_witness :
    (consumeElusive 0 sEvade).opponent.battle_line.get? 0
      = some { Creature.spawn NoddyTheThief with elusive := false } :=
  (fight_elusive_consumes_then_normal sEvade 0 0 rdyTooth
    (Creature.spawn NoddyTheThief) rfl rfl rfl).2.2.2.1

/-- Claim C9: a Fight (evaded or resolved) never changes the ready flag of
the creature at the attacker's position, whereas Reap and CreatureAction
always clear the acting creature's ready flag. -/
theorem readiness_frame (s : State) (i j : Nat) :
    (∀ s1 c c1, applyFight i j s = .ok s1 →
        s.active.battle_line.get? i = some c →
        s1.active.battle_line.get? i = some c1 → c1.ready = c.ready)
    ∧ (∀ c, s.active.battle_line.get? i = some c →
        (applyReap i s).active.battle_line.get? i = some { c with ready := false })
    ∧ (∀ c, s.active.battle_line.get? i = some c →
        (applyCreatureAction i s).active.battle_line.get? i
          = some { c with ready := false }) := by
  refine ⟨?_, ?_, ?_⟩
  · intro s1 c c1 hF hc hc1
    have hc2 := hc
    rw [List.get?_eq_getElem?] at hc2
    cases hj : s.opponent.battle_line.get? j with
    | none =>
        simp only [applyFight, hc, hj] at hF
        injection hF with h1
        subst h1
        rw [hc] at hc1
        exact congrArg Creature.ready (Option.some.inj hc1).symm
    | some target =>
        cases he : target.elusive with
        | true =>
            simp only [applyFight, hc, hj, he, if_true] at hF
            injection hF with h1
            subst h1
            rw [List.get?_eq_getElem?] at hc1
            simp only [consumeElusive, active_setOpponent] at hc1
            rw [hc2] at hc1
            exact congrArg Creature.ready (Option.some.inj hc1).symm
        | false =>
            simp only [applyFight, hc, hj, he, Bool.false_eq_true, if_false] at hF
            simp only [resolveDamage, State.cull] at hF
            split at hF
            · injection hF with h1
              subst h1
              rw [List.get?_eq_getElem?] at hc1
              simp only [active_setOpponent, active_setActive] at hc1
              rw [modifyIdx_getElem?, hc2] at hc1
              have := (Option.some.inj hc1).symm
              rw [this]
            · cases hF
  · intro c hc
    have hc2 := hc
    rw [List.get?_eq_getElem?] at hc2
    simp only [applyReap, hc]
    cases hr : c.card.reapHook <;>
      simp [applyReapHook, hc2]
  · intro c hc
    have hc2 := hc
    rw [List.get?_eq_getElem?] at hc2
    simp only [applyCreatureAction, hc]
    cases hr : c.card.actionHook <;>
      simp [applyActionHook, steal, hc2]

/-- Claim C9 witness: the `sBrawl` fight leaves the attacker ready, while
reaping in `sEvade` and acting in `sNoddyAct` clear the ready flags. -/
theorem readiness_frame_witness :
    ({ rdyTooth with damage_taken := (1 : Int) } : Creature).ready = rdyTooth.ready
    ∧ (applyReap 0 sEvade).active.battle_line.get? 0
        = some { rdyTooth with ready := false }
    ∧ (applyCreatureAction 0 sNoddyAct).active.battle_line.get? 0
        = some { rdyNoddy with ready := false } :=
  ⟨(readiness_frame sBrawl 0 0).1 _ rdyTooth { rdyTooth with damage_taken := 1 }
      rfl rfl rfl,
   (readiness_frame sEvade 0 0).2.1 rdyTooth rfl,
   (readiness_frame sNoddyAct 0 0).2.2 rdyNoddy rfl⟩

/-- Drawing touches only hand, deck and discard: aember, battle line and
forged keys survive the loop. -/
theorem drawFuel_frame (shuffle : List CreatureCard → List CreatureCard) :
    ∀ (n : Nat) (p q : Player), drawFuel shuffle n p = .ok q →
      q.battle_line = p.battle_line ∧ q.aember = p.aember ∧ q.forged = p.forged := by
  intro n
  induction n with
  | zero =>
      intro p q h
      simp only [drawFuel] at h
      injection h with h1
      subst h1
      exact ⟨rfl, rfl, rfl⟩
  | succ n ih =>
      intro p q h
      simp only [drawFuel] at h
      cases hpop : popLast?
          (if p.deck.isEmpty
            then { p with deck := shuffle p.discard, discard := [] }
            else p).deck with
      | none => rw [hpop] at h; cases h
      | some pr =>
          obtain ⟨card, rest⟩ := pr
          rw [hpop] at h
          have hframe := ih _ _ h
          cases hE : p.deck.isEmpty <;> rw [hE] at hframe <;> simpa using hframe

/-- `draw` specialisation of `drawFuel_frame`. -/
theorem draw_frame (shuffle : List CreatureCard → List CreatureCard)
    (p q : Player) (upto : Nat) (h : draw shuffle p upto = .ok q) :
    q.battle_line = p.battle_line ∧ q.aember = p.aember ∧ q.forged = p.forged :=
  drawFuel_frame shuffle _ p q h

/-- Claim C5: a successful `end_turn` (a) readies, (b) elusive/armor-resets
(damage kept) every creature of the previously active player — who is the
opponent afterwards —, (c) clears the house, (d) swaps the active marker,
and (e) forges exactly one key for exactly 6 aember iff the new active
player holds at least 6 aember at swap time. -/
theorem end_turn_spec (shuffle : List CreatureCard → List CreatureCard)
    (s s1 : State) (h : end_turn shuffle s = .ok s1) :
    s1.opponent.battle_line = s.active.battle_line.map readyReset
    ∧ s1.house = none
    ∧ s1.activeIsP0 = !s.activeIsP0
    ∧ (6 ≤ s.opponent.aember →
        s1.active.aember = s.opponent.aember - 6
        ∧ s1.active.forged = s.opponent.forged + 1)
    ∧ (s.opponent.aember < 6 →
        s1.active.aember = s.opponent.aember
        ∧ s1.active.forged = s.opponent.forged) := by
  obtain ⟨P0, P1, ab, hh, rr⟩ := s
  cases ab
  case false =>
    simp only [end_turn, State.setActive, State.active, State.opponent] at h
    simp at h
    split at h
    · cases h
    case _ drawn hd =>
      obtain ⟨hbl, hae, hfo⟩ := draw_frame _ _ _ _ hd
      split at h
      case _ hcond =>
        injection h with h1
        subst h1
        simp [State.setActive, State.active, State.opponent, hbl, hae, hfo]
        all_goals omega
      case _ hcond =>
        injection h with h1
        subst h1
        simp [State.setActive, State.active, State.opponent, hbl, hae, hfo]
        all_goals omega
  case true =>
    simp only [end_turn, State.setActive, State.active, State.opponent] at h
    simp at h
    split at h
    · cases h
    case _ drawn hd =>
      obtain ⟨hbl, hae, hfo⟩ := draw_frame _ _ _ _ hd
      split at h
      case _ hcond =>
        injection h with h1
        subst h1
        simp [State.setActive, State.active, State.opponent, hbl, hae, hfo]
        all_goals omega
      case _ hcond =>
        injection h with h1
        subst h1
        simp [State.setActive, State.active, State.opponent, hbl, hae, hfo]
        all_goals omega

/-- Claim C5 witness: `end_turn` on `sTurn` yields `sTurnRes`, whose new
active player forged a key for 6 aember (7 became 1) while the battered
creature kept its damage and regained readiness. -/
theorem end_turn_spec_witness :
    sTurnRes.active.aember = sTurn.opponent.aember - 6
    ∧ sTurnRes.active.forged = sTurn.opponent.forged + 1 :=
  (end_turn_spec noShuffle sTurn sTurnRes rfl).2.2.2.1 (by decide)

/-- A position that `get?` resolves is in bounds. -/
theorem get?_some_lt (l : List α) (i : Nat) (a : α) (h : l.get? i = some a) :
    i < l.length := by
  rw [List.get?_eq_getElem?] at h
  exact (List.getElem?_eq_some.mp h).1

/-- Membership in the `ready_creatures` index list. -/
theorem mem_readyIdx (s : State) (h : House) (i : Nat) :
    i ∈ readyIdx s h ↔ isReadyOfHouse s h i := by
  simp only [readyIdx, List.mem_filter, List.mem_range, isReadyOfHouse]
  cases hc : s.active.battle_line.get? i with
  | none => simp
  | some c =>
      have hlt := get?_some_lt _ _ _ hc
      simp [hlt]

/-- Claim C8: with no selected house, enumeration returns only `SelectHouse`
actions, exactly one per distinct house among the active player's battle
line and hand, without duplicates — and nothing at all for a player with no
cards anywhere.  (The enumeration is a pure function of the state.) -/
theorem valid_actions_no_house_spec (s : State) (hs : s.house = none) :
    (∀ a ∈ valid_actions s, ∃ h, a = Action.selectHouse h)
    ∧ (∀ h : House, Action.selectHouse h ∈ valid_actions s ↔
        ((∃ c ∈ s.active.battle_line, c.card.house = h)
          ∨ ∃ card ∈ s.active.hand, card.house = h))
    ∧ (valid_actions s).Nodup
    ∧ (s.active.hand = [] → s.active.battle_line = [] → valid_actions s = []) := by
  have hinj : Function.Injective Action.selectHouse := by
    intro a b e
    injection e
  simp only [valid_actions, hs]
  refine ⟨?_, ?_, ?_, ?_⟩
  · intro a ha
    simp only [List.mem_map] at ha
    obtain ⟨x, _, rfl⟩ := ha
    exact ⟨x, rfl⟩
  · intro hH
    simp [List.mem_dedup, hinj.eq_iff, eq_comm]
  · exact List.Nodup.map hinj (List.nodup_dedup _)
  · intro h1 h2
    simp [h1, h2]

/-- Claim C8 witness: a player with no cards at all enumerates no action. -/
theorem valid_actions_no_house_spec_witness :
    valid_actions sBare = [] :=
  (valid_actions_no_house_spec sBare rfl).2.2.2 rfl rfl

/-- Membership in the play positions: a hand card of the selected house. -/
theorem mem_playIdx (s : State) (h : House) (i : Nat) :
    i ∈ playIdx s h ↔ ∃ card, s.active.hand.get? i = some card ∧ card.house = h := by
  simp only [playIdx, List.mem_filter, List.mem_range]
  cases hc : s.active.hand.get? i with
  | none => simp
  | some card =>
      have hlt := get?_some_lt _ _ _ hc
      simp [hlt]

/-- Membership in the creature-action positions: ready, of the house, with a
truthy `card.action`. -/
theorem mem_actionIdx (s : State) (h : House) (i : Nat) :
    i ∈ actionIdx s h ↔
      isReadyOfHouse s h i ∧ ∃ c, s.active.battle_line.get? i = some c
        ∧ c.card.actionHook ≠ ActionHook.nop := by
  simp only [actionIdx, List.mem_filter, mem_readyIdx]
  refine and_congr_right fun _ => ?_
  cases hc : s.active.battle_line.get? i with
  | none => simp
  | some c => simp

/-- Membership in the enumerated fights: a ready creature of the house
paired with any opponent creature passing `can_fight`. -/
theorem mem_fightActions (s : State) (h : House) (a : Action) :
    a ∈ fightActions s h ↔
      ∃ i j c t, a = Action.fight i j ∧ isReadyOfHouse s h i
        ∧ s.active.battle_line.get? i = some c
        ∧ s.opponent.battle_line.get? j = some t
        ∧ c.can_fight t = true := by
  simp only [fightActions, List.mem_flatMap, List.mem_filterMap, List.mem_range,
    mem_readyIdx]
  constructor
  · rintro ⟨i, hready, j, hj, hm⟩
    obtain ⟨c, hc, hch, hcr⟩ := hready
    have ht : s.opponent.battle_line.get? j
        = some (s.opponent.battle_line.get ⟨j, hj⟩) := List.get?_eq_get hj
    rw [hc, ht] at hm
    simp [Creature.can_fight] at hm
    exact ⟨i, j, c, s.opponent.battle_line.get ⟨j, hj⟩, hm.symm, ⟨c, hc, hch, hcr⟩,
      hc, ht, rfl⟩
  · rintro ⟨i, j, c, t, rfl, hready, hc, ht, hcf⟩
    refine ⟨i, hready, j, get?_some_lt _ _ _ ht, ?_⟩
    rw [hc, ht]
    simp [Creature.can_fight]

/-- Claim C7: with house `h` selected, the enumerated set is exactly one
Play per hand card of house `h`, one Reap per ready creature of house `h`,
one Fight per (ready creature of house `h`, opponent creature) pair passing
`can_fight`, one CreatureAction per ready creature of house `h` with a
truthy action, and exactly one EndTurn — nothing else.  The enumeration is a
pure function, so it has no effect on the state. -/
theorem valid_actions_selected_spec (s : State) (h : House) (hs : s.house = some h)
    (a : Action) :
    (a ∈ valid_actions s ↔
      ((∃ i card, a = Action.play i ∧ s.active.hand.get? i = some card ∧ card.house = h)
        ∨ (∃ i, a = Action.reap i ∧ isReadyOfHouse s h i)
        ∨ (∃ i j c t, a = Action.fight i j ∧ isReadyOfHouse s h i
            ∧ s.active.battle_line.get? i = some c
            ∧ s.opponent.battle_line.get? j = some t
            ∧ c.can_fight t = true)
        ∨ (∃ i, a = Action.creatureAction i ∧ isReadyOfHouse s h i
            ∧ ∃ c, s.active.battle_line.get? i = some c
              ∧ c.card.actionHook ≠ ActionHook.nop)
        ∨ a = Action.endTurn))
    ∧ (valid_actions s).count Action.endTurn = 1 := by
  constructor
  · simp only [valid_actions, hs, List.mem_append, List.mem_map, mem_playIdx,
      mem_readyIdx, mem_fightActions, mem_actionIdx, List.mem_singleton]
    constructor
    · rintro ((((⟨i, ⟨card, hcard, hH⟩, rfl⟩ | ⟨i, hi, rfl⟩) | hf) | ⟨i, ⟨hi, hact⟩, rfl⟩) | rfl)
      · exact Or.inl ⟨i, card, rfl, hcard, hH⟩
      · exact Or.inr (Or.inl ⟨i, rfl, hi⟩)
      · exact Or.inr (Or.inr (Or.inl hf))
      · exact Or.inr (Or.inr (Or.inr (Or.inl ⟨i, rfl, hi, hact⟩)))
      · exact Or.inr (Or.inr (Or.inr (Or.inr rfl)))
    · rintro (⟨i, card, rfl, hcard, hH⟩ | ⟨i, rfl, hi⟩ | hf | ⟨i, rfl, hi, hact⟩ | rfl)
      · exact Or.inl (Or.inl (Or.inl (Or.inl ⟨i, ⟨card, hcard, hH⟩, rfl⟩)))
      · exact Or.inl (Or.inl (Or.inl (Or.inr ⟨i, hi, rfl⟩)))
      · exact Or.inl (Or.inl (Or.inr hf))
      · exact Or.inl (Or.inr ⟨i, ⟨hi, hact⟩, rfl⟩)
      · exact Or.inr rfl
  · simp only [valid_actions, hs]
    have h1 : ((playIdx s h).map Action.play).count Action.endTurn = 0 := by
      rw [List.count_eq_zero]
      simp
    have h2 : ((readyIdx s h).map Action.reap).count Action.endTurn = 0 := by
      rw [List.count_eq_zero]
      simp
    have h3 : (fightActions s h).count Action.endTurn = 0 := by
      rw [List.count_eq_zero]
      intro hmem
      rw [mem_fightActions] at hmem
      obtain ⟨i, j, c, t, heq, _⟩ := hmem
      cases heq
    have h4 : ((actionIdx s h).map Action.creatureAction).count Action.endTurn = 0 := by
      rw [List.count_eq_zero]
      simp
    simp [List.count_append, h1, h2, h3, h4]

/-- Claim C7 witness: on `sPicked` (house Shadows selected) the enumeration
holds exactly one EndTurn. -/
theorem valid_actions_selected_spec_witness :
    (valid_actions sPicked).count Action.endTurn = 1 :=
  (valid_actions_selected_spec sPicked Shadows rfl Action.endTurn).2

/-- Drawing preserves a player's card count, because the reshuffle is a
permutation and each pop moves one card from deck to hand. -/
theorem drawFuel_counts (shuffle : List CreatureCard → List CreatureCard)
    (hs : IsShuffle shuffle) :
    ∀ (n : Nat) (p q : Player), drawFuel shuffle n p = .ok q →
      cardCount q = cardCount p := by
  intro n
  induction n with
  | zero =>
      intro p q h
      simp only [drawFuel] at h
      injection h with h1
      subst h1
      rfl
  | succ n ih =>
      intro p q h
      simp only [drawFuel] at h
      cases hpop : popLast?
          (if p.deck.isEmpty
            then { p with deck := shuffle p.discard, discard := [] }
            else p).deck with
      | none => rw [hpop] at h; cases h
      | some pr =>
          obtain ⟨card, rest⟩ := pr
          rw [hpop] at h
          have hq := ih _ _ h
          rw [hq]
          cases hE : p.deck.isEmpty
          case true =>
            rw [hE] at hpop
            simp at hpop
            have hlen := popLast?_length _ _ _ hpop
            have hperm := (hs p.discard).length_eq
            have hnil : p.deck = [] := by
              simpa [List.isEmpty_iff] using hE
            simp [cardCount, hnil]
            omega
          case false =>
            rw [hE] at hpop
            simp at hpop
            have hlen := popLast?_length _ _ _ hpop
            simp [cardCount]
            omega

/-- `Play` moves one card from the hand into the battle line; its hooks move
aember or readiness only. -/
theorem applyPlay_counts (i : Nat) (s : State) : SameCounts s (applyPlay i s) := by
  obtain ⟨P0, P1, ab, hou, rr⟩ := s
  cases ab
  case false =>
    unfold applyPlay
    cases hc : (State.mk P0 P1 false hou rr).active.hand.get? i with
    | none => exact ⟨rfl, rfl⟩
    | some card =>
        have hlt := get?_some_lt _ _ _ hc
        simp [State.active] at hlt
        have he := List.length_eraseIdx_add_one hlt
        cases hh : card.playHook <;>
          simp [hh, applyPlayHook, steal, State.setActive, State.setOpponent,
            State.active, State.opponent, SameCounts, cardCount] <;>
          omega
  case true =>
    unfold applyPlay
    cases hc : (State.mk P0 P1 true hou rr).active.hand.get? i with
    | none => exact ⟨rfl, rfl⟩
    | some card =>
        have hlt := get?_some_lt _ _ _ hc
        simp [State.active] at hlt
        have he := List.length_eraseIdx_add_one hlt
        cases hh : card.playHook <;>
          simp [hh, applyPlayHook, steal, State.setActive, State.setOpponent,
            State.active, State.opponent, SameCounts, cardCount] <;>
          omega

/-- `Reap` moves aember and readiness only. -/
theorem applyReap_counts (i : Nat) (s : State) : SameCounts s (applyReap i s) := by
  unfold applyReap
  cases hc : s.active.battle_line.get? i with
  | none => exact ⟨rfl, rfl⟩
  | some c =>
      cases hr : c.card.reapHook <;>
      · obtain ⟨P0, P1, ab, hou, rr⟩ := s
        cases ab <;>
          simp [hr, applyReapHook, State.setActive, State.setOpponent, State.active,
            State.opponent, SameCounts, cardCount]

/-- `CreatureAction` moves aember and readiness only. -/
theorem applyCreatureAction_counts (i : Nat) (s : State) :
    SameCounts s (applyCreatureAction i s) := by
  unfold applyCreatureAction
  cases hc : s.active.battle_line.get? i with
  | none => exact ⟨rfl, rfl⟩
  | some c =>
      cases hr : c.card.actionHook <;>
      · obtain ⟨P0, P1, ab, hou, rr⟩ := s
        cases ab <;>
          simp [hr, applyActionHook, steal, State.setActive, State.setOpponent,
            State.active, State.opponent, SameCounts, cardCount]

/-- A successful `Fight` (evaded, or resolved with a clean cull) touches
damage, armor and elusive flags only, never the card counts. -/
theorem applyFight_counts (i j : Nat) (s s1 : State)
    (h : applyFight i j s = .ok s1) : SameCounts s s1 := by
  unfold applyFight at h
  cases ha : s.active.battle_line.get? i with
  | none =>
      rw [ha] at h
      cases hb : s.opponent.battle_line.get? j with
      | none => rw [hb] at h; injection h with h1; subst h1; exact ⟨rfl, rfl⟩
      | some t => rw [hb] at h; injection h with h1; subst h1; exact ⟨rfl, rfl⟩
  | some attacker =>
      rw [ha] at h
      cases hb : s.opponent.battle_line.get? j with
      | none => rw [hb] at h; injection h with h1; subst h1; exact ⟨rfl, rfl⟩
      | some target =>
          rw [hb] at h
          cases he : target.elusive
          case true =>
            simp [he] at h
            subst h
            obtain ⟨P0, P1, ab, hou, rr⟩ := s
            cases ab <;>
              simp [consumeElusive, State.setOpponent, State.active, State.opponent,
                SameCounts, cardCount]
          case false =>
            simp [he] at h
            unfold resolveDamage at h
            simp only [State.cull] at h
            split at h
            · injection h with h1
              subst h1
              obtain ⟨P0, P1, ab, hou, rr⟩ := s
              cases ab <;>
                simp [State.setActive, State.setOpponent, State.active,
                  State.opponent, SameCounts, cardCount]
            · cases h

/-- A successful `end_turn` preserves both card counts: readying maps the
battle line pointwise and the draw preserves the drawn player's count. -/
theorem end_turn_counts (shuffle : List CreatureCard → List CreatureCard)
    (hs : IsShuffle shuffle) (s s1 : State)
    (h : end_turn shuffle s = .ok s1) : SameCounts s s1 := by
  obtain ⟨P0, P1, ab, hou, rr⟩ := s
  cases ab
  case false =>
    simp only [end_turn, State.setActive, State.active, State.opponent] at h
    simp at h
    split at h
    · cases h
    case _ drawn hd =>
      have hcnt : cardCount drawn
          = cardCount { P1 with battle_line := P1.battle_line.map readyReset } :=
        drawFuel_counts shuffle hs _ _ _ hd
      split at h <;>
      · injection h with h1
        subst h1
        simp [cardCount] at hcnt
        simp [State.setActive, State.active, State.opponent, SameCounts, cardCount]
        omega
  case true =>
    simp only [end_turn, State.setActive, State.active, State.opponent] at h
    simp at h
    split at h
    · cases h
    case _ drawn hd =>
      have hcnt : cardCount drawn
          = cardCount { P0 with battle_line := P0.battle_line.map readyReset } :=
        drawFuel_counts shuffle hs _ _ _ hd
      split at h <;>
      · injection h with h1
        subst h1
        simp [cardCount] at hcnt
        simp [State.setActive, State.active, State.opponent, SameCounts, cardCount]
        omega

/-- The initial deal gives each player exactly their shuffled deck's cards. -/
theorem mkState_counts (shuffle : List CreatureCard → List CreatureCard)
    (hs : IsShuffle shuffle) (deck1 deck2 : List CreatureCard) (s : State)
    (h : mkState shuffle deck1 deck2 = .ok s) :
    cardCount s.p0 = deck1.length ∧ cardCount s.p1 = deck2.length := by
  simp only [mkState] at h
  cases hd0 : draw shuffle ⟨0, [], [], [], shuffle deck1, 0⟩ 7 with
  | error e => rw [hd0] at h; cases h
  | ok pl0d =>
      rw [hd0] at h
      cases hd1 : draw shuffle ⟨0, [], [], [], shuffle deck2, 0⟩ 6 with
      | error e => rw [hd1] at h; cases h
      | ok pl1d =>
          rw [hd1] at h
          injection h with h1
          subst h1
          have h0 := drawFuel_counts shuffle hs _ _ _ hd0
          have h1 := drawFuel_counts shuffle hs _ _ _ hd1
          have e1 := (hs deck1).length_eq
          have e2 := (hs deck2).length_eq
          simp [cardCount] at h0 h1
          simp [cardCount, h0, h1, e1, e2]

/-- Every action preserves both players' card counts when it succeeds. -/
theorem applyAction_counts (shuffle : List CreatureCard → List CreatureCard)
    (hs : IsShuffle shuffle) (a : Action) (s s1 : State)
    (h : applyAction shuffle a s = .ok s1) : SameCounts s s1 := by
  cases a with
  | play i =>
      injection h with h1
      subst h1
      exact applyPlay_counts i s
  | reap i =>
      injection h with h1
      subst h1
      exact applyReap_counts i s
  | fight i j => exact applyFight_counts i j s s1 h
  | creatureAction i =>
      injection h with h1
      subst h1
      exact applyCreatureAction_counts i s
  | selectHouse hH =>
      injection h with h1
      subst h1
      exact ⟨rfl, rfl⟩
  | endTurn => exact end_turn_counts shuffle hs s s1 h

/-- Claim C4: in every reachable state each player's four collections hold
exactly as many cards as their initial deck — every action only moves cards
between hand, battle line, deck and discard. -/
theorem card_conservation (deck1 deck2 : List CreatureCard) (s : State)
    (h : Reachable deck1 deck2 s) :
    cardCount s.p0 = deck1.length ∧ cardCount s.p1 = deck2.length := by
  induction h with
  | init shuffle hs s hmk => exact mkState_counts shuffle hs deck1 deck2 s hmk
  | step shuffle hs a s s1 hreach happ ih =>
      obtain ⟨h0, h1⟩ := applyAction_counts shuffle hs a s s1 happ
      exact ⟨h0.trans ih.1, h1.trans ih.2⟩

/-- Claim C4 witness: the freshly dealt `demoInit` state owns 7 and 6
cards. -/
theorem card_conservation_witness :
    cardCount demoInit.p0 = demoDeck1.length
    ∧ cardCount demoInit.p1 = demoDeck2.length :=
  card_conservation demoDeck1 demoDeck2 demoInit
    (Reachable.init noShuffle (fun l => List.Perm.refl l) demoInit rfl)

end KeyForge
